import Mathlib

/-!
Shallow embedding of `src/SpainIPChecker.py` (class `IPChecker`): a
concurrent domain-block checker that probes each domain through a proxy,
retries up to three times, classifies the response body against a fixed
block signature, and streams one CSV result line per domain.

The network transport (`session.get`) is modelled as a function from the
attempt number to either a raised transport exception or an HTTP response;
the evidence-file write is modelled as a success/failure oracle per
attempt.  Stateful parts (`run`, the semaphore-gated scheduler) are
modelled as a fold over the domain list and as a labelled transition
system, respectively.
-/

set_option maxRecDepth 100000

namespace SpainIPChecker

/-- Transport-level exceptions raised by `session.get` and caught by the
three except-clauses of `check_domain` (lines 113-118 of the source). -/
inductive ProbeError where
  | timeout
  | clientError
  | other
deriving DecidableEq

/-- An HTTP response as observed by `check_domain`: status code and body. -/
structure HttpResponse where
  status : Nat
  body : String
deriving DecidableEq

/-- One `session.get` call: either a response or a raised transport
exception.  Indexed by the attempt number (1-based). -/
abbrev Probe := Nat → Except ProbeError HttpResponse

/-- Per-attempt outcome taxonomy of the Probe component. -/
inductive Outcome where
  | blocked (body : String)
  | notBlocked
  | transientError
deriving DecidableEq

/-- The exact block-signature string tested for substring containment in
the response body (line 100 of the source). -/
def blockSignature : String :=
  "https://www.laliga.com/noticias/nota-informativa-en-relacion-con-el-bloqueo-de-ips-durante-las-ultimas-jornadas-de-laliga-ea-sports-vinculadas-a-las-practicas-ilegales-de-cloudflare"

/-- The ISP label used in result lines and evidence file names. -/
def isp_label : String := "ES_DigiSpain"

/-- Python `signature in html_content`: exact substring containment. -/
def containsSig (body : String) : Bool :=
  decide (blockSignature.data <:+: body.data)

/-- `max_attempts = 3` (line 83 of the source). -/
def max_attempts : Nat := 3

/-- The inter-attempt delay `asyncio.sleep(0.5)` (line 122), in time-units. -/
def retryDelay : ℚ := 1/2

/-- The per-attempt timeout `aiohttp.ClientTimeout(total=3)` (line 91). -/
def attemptTimeout : ℚ := 3

/-- `allow_redirects=False` (line 92): redirects are not followed. -/
def allowRedirects : Bool := false

/-- `asyncio.Semaphore(500)` (line 186): the scheduler concurrency cap. -/
def concurrencyCap : Nat := 500

/-- Classification of one `session.get` result by the branch structure of
`check_domain`: a raised exception is a transient error; only a status-200
response has its body inspected; the signature present yields `blocked`,
everything else falls through to `notBlocked`. -/
def classify : Except ProbeError HttpResponse → Outcome
  | .error _ => .transientError
  | .ok r =>
    if r.status = 200 then
      if containsSig r.body then .blocked r.body else .notBlocked
    else .notBlocked

/-- The observable effect of one iteration of the retry loop body:
whether the iteration executes `return True`, how much it adds to
`blocked_count`, and whether it successfully wrote an evidence file. -/
structure AttemptEffect where
  returnTrue : Bool
  inc : Nat
  wrote : Bool
deriving DecidableEq

/-- One iteration of the `for attempt in range(1, max_attempts + 1)` body
(lines 86-118): on a 200 response containing the signature,
`blocked_count` is incremented first, then the evidence write runs; if
the write raises (writer returns `false`) the exception is caught by
`except Exception: pass` and the iteration completes without returning,
but the increment is not undone. -/
def attemptEffect (probe : Probe) (writer : Nat → Bool) (attempt : Nat) :
    AttemptEffect :=
  match probe attempt with
  | .error _ => ⟨false, 0, false⟩
  | .ok r =>
    if r.status = 200 then
      if containsSig r.body then
        if writer attempt then ⟨true, 1, true⟩ else ⟨false, 1, false⟩
      else ⟨false, 0, false⟩
    else ⟨false, 0, false⟩

/-- The value and observable trace of one `check_domain` call: the boolean
verdict, the number of attempts actually made, the inter-attempt delays
slept, the total added to `blocked_count`, and the attempt numbers whose
evidence files were written. -/
structure CheckResult where
  result : Bool
  attemptsMade : Nat
  delays : List ℚ
  blockedInc : Nat
  evidence : List Nat
deriving DecidableEq

/-- The retry loop of `check_domain` (lines 85-124), with the remaining
iteration count as the structural fuel: attempt numbers run upward while
the fuel counts down, and the delay is slept only when the iteration did
not return and `attempt < max_attempts`. -/
def checkLoop (probe : Probe) (writer : Nat → Bool) :
    Nat → Nat → CheckResult
  | 0, attempt =>
    { result := false, attemptsMade := attempt - 1, delays := [],
      blockedInc := 0, evidence := [] }
  | fuel + 1, attempt =>
    let e := attemptEffect probe writer attempt
    if e.returnTrue then
      { result := true, attemptsMade := attempt, delays := [],
        blockedInc := e.inc,
        evidence := if e.wrote then [attempt] else [] }
    else
      let rest := checkLoop probe writer fuel (attempt + 1)
      { result := rest.result, attemptsMade := rest.attemptsMade,
        delays := (if attempt < max_attempts then [retryDelay] else [])
          ++ rest.delays,
        blockedInc := e.inc + rest.blockedInc,
        evidence := (if e.wrote then [attempt] else []) ++ rest.evidence }

/-- `check_domain` (lines 80-124): run the retry loop from attempt 1 with
`max_attempts` iterations available. -/
def check_domain (probe : Probe) (writer : Nat → Bool) : CheckResult :=
  checkLoop probe writer max_attempts 1

/-- The CSV line written per domain (line 147):
`f"{domain},ES_DigiSpain,{is_blocked}"` with Python booleans. -/
def resultLine (domain : String) (is_blocked : Bool) : String :=
  domain ++ "," ++ isp_label ++ "," ++ (if is_blocked then "True" else "False")

/-- The CSV header line written once at the start of `run` (line 168). -/
def headerLine : String := "domain,isp_name,is_blocked"

/-- The mutable per-run state: the two counters of `IPChecker`, the lines
written to the output file, and the Verdict records they serialize. -/
structure ScanState where
  completed_checks : Nat
  blocked_count : Nat
  lines : List String
  verdicts : List (String × Bool)
deriving DecidableEq

/-- `process_domain` (lines 142-154): run `check_domain`, write one result
line, and bump `completed_checks`; `blocked_count` was already bumped
inside `check_domain` by each signature-matching attempt. -/
def process_domain (probes : String → Probe) (writers : String → Nat → Bool)
    (st : ScanState) (domain : String) : ScanState :=
  let r := check_domain (probes domain) (writers domain)
  { completed_checks := st.completed_checks + 1,
    blocked_count := st.blocked_count + r.blockedInc,
    lines := st.lines ++ [resultLine domain r.result],
    verdicts := st.verdicts ++ [(domain, r.result)] }

/-- `run` (lines 156-191), as the cumulative effect of all per-domain
pipelines on the shared state: header first, then one `process_domain`
per loaded domain.  (Interleaving cannot change the totals: each counter
update and line write is a single atomic mutation.) -/
def run (probes : String → Probe) (writers : String → Nat → Bool)
    (domains : List String) : ScanState :=
  domains.foldl (process_domain probes writers)
    { completed_checks := 0, blocked_count := 0, lines := [headerLine],
      verdicts := [] }

/-- True exactly on the `blocked` outcome. -/
def isBlockedOutcome : Outcome → Bool
  | .blocked _ => true
  | _ => false

/-- A probe whose every attempt returns a 200 response carrying the block
signature (the fake always-Blocked probe of the spec's test properties). -/
def pBlocked : Probe := fun _ => .ok ⟨200, blockSignature⟩

/-- A probe whose every attempt raises a timeout (the fake
always-TransientError probe of the spec's test properties). -/
def pTransient : Probe := fun _ => .error .timeout

lemma isBlockedOutcome_iff (o : Outcome) :
    isBlockedOutcome o = true ↔ ∃ b, o = .blocked b := by
  cases o <;> simp [isBlockedOutcome]

lemma attemptEffect_of_error (probe : Probe) (writer : Nat → Bool) (i : Nat)
    (e : ProbeError) (h : probe i = .error e) :
    attemptEffect probe writer i = ⟨false, 0, false⟩ := by
  simp [attemptEffect, h]

lemma attemptEffect_of_transient (probe : Probe) (writer : Nat → Bool) (i : Nat)
    (h : classify (probe i) = .transientError) :
    attemptEffect probe writer i = ⟨false, 0, false⟩ := by
  cases hp : probe i with
  | error e => simp [attemptEffect, hp]
  | ok r =>
    exfalso
    rw [hp] at h
    simp only [classify] at h
    split_ifs at h

lemma attemptEffect_returnTrue_iff (probe : Probe) (writer : Nat → Bool)
    (i : Nat) :
    (attemptEffect probe writer i).returnTrue = true ↔
      ((∃ b, classify (probe i) = .blocked b) ∧ writer i = true) := by
  cases hp : probe i with
  | error e => simp [attemptEffect, classify, hp]
  | ok r =>
    by_cases hs : r.status = 200 <;> by_cases hc : containsSig r.body <;>
      by_cases hw : writer i <;>
        simp [attemptEffect, classify, hp, hs, hc, hw]

lemma attemptEffect_inc_eq (probe : Probe) (writer : Nat → Bool) (i : Nat) :
    (attemptEffect probe writer i).inc =
      if isBlockedOutcome (classify (probe i)) then 1 else 0 := by
  cases hp : probe i with
  | error e => simp [attemptEffect, classify, hp, isBlockedOutcome]
  | ok r =>
    by_cases hs : r.status = 200 <;> by_cases hc : containsSig r.body <;>
      by_cases hw : writer i <;>
        simp [attemptEffect, classify, hp, hs, hc, hw, isBlockedOutcome]

lemma attemptEffect_returnTrue_of_writer_true (probe : Probe)
    (writer : Nat → Bool) (i : Nat) (hw : writer i = true) :
    (attemptEffect probe writer i).returnTrue =
      isBlockedOutcome (classify (probe i)) := by
  cases hp : probe i with
  | error e => simp [attemptEffect, classify, hp, isBlockedOutcome]
  | ok r =>
    by_cases hs : r.status = 200 <;> by_cases hc : containsSig r.body <;>
      simp [attemptEffect, classify, hp, hs, hc, hw, isBlockedOutcome]

/-- There are exactly three attempt numbers, 1, 2 and 3. -/
lemma exists_attempt_iff (P : Nat → Prop) :
    (∃ i, 1 ≤ i ∧ i ≤ max_attempts ∧ P i) ↔ P 1 ∨ P 2 ∨ P 3 := by
  simp only [max_attempts]
  constructor
  · rintro ⟨i, h1, h3, hp⟩
    interval_cases i <;> tauto
  · rintro (h | h | h)
    · exact ⟨1, by omega, by omega, h⟩
    · exact ⟨2, by omega, by omega, h⟩
    · exact ⟨3, by omega, by omega, h⟩

lemma check_domain_result_iff (probe : Probe) (writer : Nat → Bool) :
    (check_domain probe writer).result = true ↔
      ∃ i, 1 ≤ i ∧ i ≤ max_attempts ∧
        (attemptEffect probe writer i).returnTrue = true := by
  rw [exists_attempt_iff]
  by_cases h1 : (attemptEffect probe writer 1).returnTrue <;>
    by_cases h2 : (attemptEffect probe writer 2).returnTrue <;>
      by_cases h3 : (attemptEffect probe writer 3).returnTrue <;>
        simp [check_domain, checkLoop, max_attempts, h1, h2, h3]

lemma check_domain_first_true (probe : Probe) (writer : Nat → Bool) (k : Nat)
    (hk1 : 1 ≤ k) (hk3 : k ≤ max_attempts)
    (hb : (attemptEffect probe writer k).returnTrue = true)
    (hmin : ∀ j, 1 ≤ j → j < k →
      (attemptEffect probe writer j).returnTrue = false) :
    (check_domain probe writer).result = true ∧
      (check_domain probe writer).attemptsMade = k := by
  rw [max_attempts] at hk3
  interval_cases k
  · constructor <;> simp [check_domain, checkLoop, max_attempts, hb]
  · have j1 := hmin 1 (by omega) (by omega)
    constructor <;> simp [check_domain, checkLoop, max_attempts, j1, hb]
  · have j1 := hmin 1 (by omega) (by omega)
    have j2 := hmin 2 (by omega) (by omega)
    constructor <;> simp [check_domain, checkLoop, max_attempts, j1, j2, hb]

lemma check_domain_all_false (probe : Probe) (writer : Nat → Bool)
    (h : ∀ i, 1 ≤ i → i ≤ max_attempts →
      (attemptEffect probe writer i).returnTrue = false) :
    (check_domain probe writer).result = false ∧
      (check_domain probe writer).attemptsMade = max_attempts ∧
      (check_domain probe writer).delays = [retryDelay, retryDelay] := by
  have h1 := h 1 (by omega) (by simp [max_attempts])
  have h2 := h 2 (by omega) (by simp [max_attempts])
  have h3 := h 3 (by omega) (by simp [max_attempts])
  refine ⟨?_, ?_, ?_⟩ <;>
    simp [check_domain, checkLoop, max_attempts, h1, h2, h3]

lemma check_domain_blockedInc (probe : Probe) (writer : Nat → Bool)
    (hw : ∀ n, writer n = true) :
    (check_domain probe writer).blockedInc =
      if (check_domain probe writer).result then 1 else 0 := by
  have e1 := attemptEffect_returnTrue_of_writer_true probe writer 1 (hw 1)
  have e2 := attemptEffect_returnTrue_of_writer_true probe writer 2 (hw 2)
  have e3 := attemptEffect_returnTrue_of_writer_true probe writer 3 (hw 3)
  have i1 := attemptEffect_inc_eq probe writer 1
  have i2 := attemptEffect_inc_eq probe writer 2
  have i3 := attemptEffect_inc_eq probe writer 3
  by_cases h1 : (attemptEffect probe writer 1).returnTrue <;>
    by_cases h2 : (attemptEffect probe writer 2).returnTrue <;>
      by_cases h3 : (attemptEffect probe writer 3).returnTrue <;>
        simp_all [check_domain, checkLoop, max_attempts]

lemma foldl_process_domain (probes : String → Probe)
    (writers : String → Nat → Bool) (domains : List String) (st : ScanState) :
    domains.foldl (process_domain probes writers) st =
      { completed_checks := st.completed_checks + domains.length,
        blocked_count := st.blocked_count + (domains.map
          (fun d => (check_domain (probes d) (writers d)).blockedInc)).sum,
        lines := st.lines ++ domains.map
          (fun d => resultLine d (check_domain (probes d) (writers d)).result),
        verdicts := st.verdicts ++ domains.map
          (fun d => (d, (check_domain (probes d) (writers d)).result)) } := by
  induction domains generalizing st with
  | nil => simp
  | cons d rest ih =>
    simp only [List.foldl_cons, ih, process_domain, List.map_cons,
      List.sum_cons, List.length_cons, ScanState.mk.injEq]
    refine ⟨by omega, by omega, by simp, by simp⟩

lemma run_eq (probes : String → Probe) (writers : String → Nat → Bool)
    (domains : List String) :
    run probes writers domains =
      { completed_checks := domains.length,
        blocked_count := (domains.map
          (fun d => (check_domain (probes d) (writers d)).blockedInc)).sum,
        lines := headerLine :: domains.map
          (fun d => resultLine d (check_domain (probes d) (writers d)).result),
        verdicts := domains.map
          (fun d => (d, (check_domain (probes d) (writers d)).result)) } := by
  simp [run, foldl_process_domain]

/-- Claim C2: `check_domain` returns true iff at least one of the up to 3
sequential attempts yields a response classified as Blocked; it returns
true at the first Blocked attempt, making no further attempts; a probe
that always yields TransientError makes it return false after exactly 3
attempts with exactly 2 inter-attempt delays of 0.5 time-units (the delay
is skipped after the final attempt).  The evidence writes are taken to
succeed (the failing-write path is claim C10). -/
theorem claim_C2 :
    (∀ probe : Probe,
      ((check_domain probe (fun _ => true)).result = true ↔
        ∃ i, 1 ≤ i ∧ i ≤ max_attempts ∧
          ∃ b, classify (probe i) = .blocked b)) ∧
    (∀ (probe : Probe) (k : Nat), 1 ≤ k → k ≤ max_attempts →
      (∃ b, classify (probe k) = .blocked b) →
      (∀ j, 1 ≤ j → j < k → ¬ ∃ b, classify (probe j) = .blocked b) →
      (check_domain probe (fun _ => true)).result = true ∧
        (check_domain probe (fun _ => true)).attemptsMade = k) ∧
    (∀ probe : Probe, (∀ n, classify (probe n) = .transientError) →
      (check_domain probe (fun _ => true)).result = false ∧
        (check_domain probe (fun _ => true)).attemptsMade = max_attempts ∧
        (check_domain probe (fun _ => true)).delays =
          [retryDelay, retryDelay] ∧
        retryDelay = 1/2) := by
  refine ⟨?_, ?_, ?_⟩
  · intro probe
    rw [check_domain_result_iff]
    constructor
    · rintro ⟨i, h1, h3, hb⟩
      exact ⟨i, h1, h3,
        ((attemptEffect_returnTrue_iff probe _ i).mp hb).1⟩
    · rintro ⟨i, h1, h3, hb⟩
      exact ⟨i, h1, h3,
        (attemptEffect_returnTrue_iff probe _ i).mpr ⟨hb, rfl⟩⟩
  · intro probe k hk1 hk3 hb hmin
    refine check_domain_first_true probe _ k hk1 hk3 ?_ ?_
    · exact (attemptEffect_returnTrue_iff probe _ k).mpr ⟨hb, rfl⟩
    · intro j hj1 hjk
      have := hmin j hj1 hjk
      rw [← Bool.not_eq_true]
      intro hc
      exact this ((attemptEffect_returnTrue_iff probe _ j).mp hc).1
  · intro probe htr
    have hall : ∀ i, 1 ≤ i → i ≤ max_attempts →
        (attemptEffect probe (fun _ => true) i).returnTrue = false := by
      intro i _ _
      rw [attemptEffect_of_transient probe _ i (htr i)]
    obtain ⟨h1, h2, h3⟩ := check_domain_all_false probe _ hall
    exact ⟨h1, h2, h3, rfl⟩

/-- Witness for claim C2 at the two fake probes: the always-Blocked probe
yields true after 1 attempt; the always-TransientError probe yields false
after 3 attempts and 2 delays. -/
theorem claim_C2_witness :
    (check_domain pBlocked (fun _ => true)).result = true ∧
    (check_domain pBlocked (fun _ => true)).attemptsMade = 1 ∧
    (check_domain pTransient (fun _ => true)).result = false ∧
    (check_domain pTransient (fun _ => true)).attemptsMade = max_attempts ∧
    (check_domain pTransient (fun _ => true)).delays =
      [retryDelay, retryDelay] := by
  obtain ⟨-, h2, h3⟩ := claim_C2
  have hb : ∃ b, classify (pBlocked 1) = .blocked b :=
    ⟨blockSignature, by decide⟩
  obtain ⟨hr, ha⟩ := h2 pBlocked 1 (by decide) (by decide) hb
    (fun j hj1 hj0 => absurd (Nat.lt_of_lt_of_le hj0 hj1) (by omega))
  obtain ⟨tr, ta, td, -⟩ := h3 pTransient (fun n => rfl)
  exact ⟨hr, ha, tr, ta, td⟩

/-- Claim C3: per-attempt classification — only a 200 response has its
body inspected, the body is tested for exact substring containment of the
block signature (presence yields Blocked with the body, absence yields
NotBlocked), any non-200 status (in particular any redirect status) is
NotBlocked, redirects are not followed (`allow_redirects=false`), and the
per-attempt timeout is 3 time-units. -/
theorem claim_C3 :
    (∀ status body, classify (.ok ⟨status, body⟩) =
      (if status = 200 then
        (if blockSignature.data <:+: body.data then .blocked body
         else .notBlocked)
       else .notBlocked)) ∧
    (∀ status b1 b2, status ≠ 200 →
      classify (.ok ⟨status, b1⟩) = classify (.ok ⟨status, b2⟩)) ∧
    (∀ status body, 300 ≤ status → status ≤ 399 →
      classify (.ok ⟨status, body⟩) = .notBlocked) ∧
    (∀ e, classify (.error e) = .transientError) ∧
    allowRedirects = false ∧
    attemptTimeout = 3 := by
  refine ⟨?_, ?_, ?_, fun e => rfl, rfl, rfl⟩
  · intro status body
    by_cases hs : status = 200 <;>
      by_cases hc : blockSignature.data <:+: body.data <;>
        simp [classify, containsSig, hs, hc]
  · intro status b1 b2 hs
    simp [classify, hs]
  · intro status body h3 h4
    have hs : status ≠ 200 := by omega
    simp [classify, hs]

/-- Witness for claim C3: a 200 response whose body is the signature
itself is Blocked; a 301 redirect is NotBlocked; a raised timeout is a
TransientError. -/
theorem claim_C3_witness :
    classify (.ok ⟨200, blockSignature⟩) = .blocked blockSignature ∧
    classify (.ok ⟨301, "anything"⟩) = .notBlocked ∧
    classify (.error .timeout) = .transientError := by
  obtain ⟨h1, -, h3, h4, -, -⟩ := claim_C3
  refine ⟨?_, h3 301 "anything" (by omega) (by omega), h4 .timeout⟩
  rw [h1 200 blockSignature]
  simp [show blockSignature.data <:+: blockSignature.data from ⟨[], [], by simp⟩]

/-- Claim C9: every transport-level exception raised inside an attempt is
caught in `check_domain` (its loop-body effect is the no-op `pass`), a
probe whose every attempt raises still yields a false verdict rather than
propagating, and `run` consequently produces one verdict and one result
line (plus the header) per domain for every probe behaviour. -/
theorem claim_C9 :
    (∀ (probe : Probe) (writer : Nat → Bool) (i : Nat) (e : ProbeError),
      probe i = .error e →
      attemptEffect probe writer i = ⟨false, 0, false⟩) ∧
    (∀ (probe : Probe) (writer : Nat → Bool),
      (∀ n, ∃ e, probe n = .error e) →
      (check_domain probe writer).result = false) ∧
    (∀ (probes : String → Probe) (writers : String → Nat → Bool)
      (domains : List String),
      (run probes writers domains).verdicts.length = domains.length ∧
      (run probes writers domains).lines.length = domains.length + 1) := by
  refine ⟨attemptEffect_of_error, ?_, ?_⟩
  · intro probe writer h
    refine (check_domain_all_false probe writer ?_).1
    intro i _ _
    obtain ⟨e, he⟩ := h i
    rw [attemptEffect_of_error probe writer i e he]
  · intro probes writers domains
    rw [run_eq]
    simp

/-- Witness for claim C9: the always-raising probe is caught at attempt 1,
yields a false verdict, and a one-domain run still emits one verdict and
one line plus the header. -/
theorem claim_C9_witness :
    attemptEffect pTransient (fun _ => true) 1 = ⟨false, 0, false⟩ ∧
    (check_domain pTransient (fun _ => true)).result = false ∧
    (run (fun _ => pTransient) (fun _ _ => true) ["a.com"]).verdicts.length
      = 1 ∧
    (run (fun _ => pTransient) (fun _ _ => true) ["a.com"]).lines.length
      = 2 := by
  obtain ⟨h1, h2, h3⟩ := claim_C9
  obtain ⟨hv, hl⟩ := h3 (fun _ => pTransient) (fun _ _ => true) ["a.com"]
  exact ⟨h1 pTransient (fun _ => true) 1 .timeout rfl,
    h2 pTransient (fun _ => true) (fun n => ⟨.timeout, rfl⟩), hv, hl⟩

/-- Claim C10: an evidence-write failure on a signature-matching attempt
is swallowed and the loop proceeds to the next attempt without undoing
the `blocked_count` increment, so `check_domain` returns true exactly
when some attempt both classifies as Blocked and completes its evidence
write; with every write failing, the always-Blocked probe ends with a
false verdict, 3 attempts made, `blocked_count` raised by 3 and no
evidence file recorded. -/
theorem claim_C10 :
    (∀ (probe : Probe) (writer : Nat → Bool),
      ((check_domain probe writer).result = true ↔
        ∃ i, 1 ≤ i ∧ i ≤ max_attempts ∧
          (∃ b, classify (probe i) = .blocked b) ∧ writer i = true)) ∧
    ((check_domain pBlocked (fun _ => false)).result = false ∧
      (check_domain pBlocked (fun _ => false)).attemptsMade = max_attempts ∧
      (check_domain pBlocked (fun _ => false)).blockedInc = 3 ∧
      (check_domain pBlocked (fun _ => false)).evidence = []) := by
  constructor
  · intro probe writer
    rw [check_domain_result_iff]
    constructor
    · rintro ⟨i, hi1, hi3, hb⟩
      exact ⟨i, hi1, hi3, (attemptEffect_returnTrue_iff probe writer i).mp hb⟩
    · rintro ⟨i, hi1, hi3, hb, hw⟩
      exact ⟨i, hi1, hi3,
        (attemptEffect_returnTrue_iff probe writer i).mpr ⟨hb, hw⟩⟩
  · refine ⟨?_, ?_, ?_, ?_⟩ <;> decide

lemma filter_snd_map_length (l : List String) (f : String → Bool) :
    ((l.map (fun d => (d, f d))).filter (fun v => v.2)).length =
      (l.map (fun d => if f d then 1 else 0)).sum := by
  induction l with
  | nil => rfl
  | cons d rest ih =>
    by_cases h : f d
    · simp [h, ih]; omega
    · simp [h, ih]

/-- Claim C4, counterexample: in a run over one domain whose probe always
serves the block signature but whose evidence writes always fail,
`blocked_count` ends at 3 while the number of True verdicts is 0 — so
`blocked_count` is not incremented only on True verdicts and does not
equal the number of True verdicts. -/
theorem claim_C4_counterexample :
    ¬ ((run (fun _ => pBlocked) (fun _ _ => false) ["x.com"]).blocked_count =
      (((run (fun _ => pBlocked) (fun _ _ => false) ["x.com"]).verdicts.filter
        (fun v => v.2)).length)) := by
  decide

/-- Claim C4, amended: `completed_checks` is incremented exactly once per
Verdict (it ends equal to the number of domains, which is the number of
verdicts); `blocked_count` is incremented once per signature-matching
attempt, so whenever every evidence write succeeds it equals the number
of True verdicts (an evidence-write failure can leave it larger). -/
theorem claim_C4_amended :
    ∀ (probes : String → Probe) (writers : String → Nat → Bool)
      (domains : List String),
      (run probes writers domains).completed_checks = domains.length ∧
      (run probes writers domains).verdicts.length = domains.length ∧
      (run probes writers domains).blocked_count = (domains.map
        (fun d => (check_domain (probes d) (writers d)).blockedInc)).sum ∧
      ((∀ d n, writers d n = true) →
        (run probes writers domains).blocked_count =
          ((run probes writers domains).verdicts.filter
            (fun v => v.2)).length) := by
  intro probes writers domains
  rw [run_eq]
  refine ⟨by simp, by simp, rfl, ?_⟩
  intro hw
  simp only [filter_snd_map_length]
  refine congrArg List.sum (List.map_congr_left fun d _ => ?_)
  rw [check_domain_blockedInc (probes d) (writers d) (hw d)]

/-- Witness for claim C4 (amended): a one-domain run with the
always-Blocked probe and succeeding evidence writes ends with
`completed_checks = 1` and `blocked_count` equal to the single True
verdict. -/
theorem claim_C4_amended_witness :
    (run (fun _ => pBlocked) (fun _ _ => true) ["x.com"]).completed_checks
      = 1 ∧
    (run (fun _ => pBlocked) (fun _ _ => true) ["x.com"]).blocked_count =
      (((run (fun _ => pBlocked) (fun _ _ => true) ["x.com"]).verdicts.filter
        (fun v => v.2)).length) := by
  obtain ⟨h1, -, -, h4⟩ :=
    claim_C4_amended (fun _ => pBlocked) (fun _ _ => true) ["x.com"]
  exact ⟨by simpa using h1, h4 (fun d n => rfl)⟩

/-- Python falsiness of an environment lookup: unset or empty string. -/
def pyFalsy : Option String → Bool
  | none => true
  | some s => s == ""

/-- Python f-string rendering of an optional environment value: `None`
when unset. -/
def pyStr : Option String → String
  | none => "None"
  | some s => s

/-- `_build_proxy_url` (lines 32-44): first component is the proxy URL
(`None` when credentials are missing), second component records whether
the non-fatal warning was printed. -/
def build_proxy_url (env : String → Option String) : Option String × Bool :=
  let username := env "GEONODE_USERNAME"
  let password := env "GEONODE_PASSWORD"
  let proxy_host := (env "PROXY_HOST").getD "proxy.geonode.io"
  let proxy_port := (env "PROXY_PORT").getD "9000"
  let asn := env "ES_DIGISPAIN_ASN"
  if pyFalsy username || pyFalsy password then
    (none, true)
  else
    (some ("http://" ++ pyStr username ++ "-type-residential-country-es-asn-"
      ++ pyStr asn ++ ":" ++ pyStr password ++ "@" ++ proxy_host ++ ":"
      ++ proxy_port), false)

/-- Modelled from the spec: the transport behaviour absent from `src/`
(aiohttp's `session.get` with the configured proxy when no proxy was
built) — "the run proceeds with no proxy, which will simply fail all
probes with `TransientError`", so every attempt raises a transport
exception. -/
def noProxyProbe : Probe := fun _ => .error .other

/-- Claim C5: when either proxy credential is absent (or empty) the
startup emits the non-fatal warning and proceeds with no proxy
configured, in which case every probe attempt fails with TransientError
and every domain of the run receives a False verdict. -/
theorem claim_C5 :
    ∀ env : String → Option String,
      (pyFalsy (env "GEONODE_USERNAME") = true ∨
        pyFalsy (env "GEONODE_PASSWORD") = true) →
      build_proxy_url env = (none, true) ∧
      (∀ n, classify (noProxyProbe n) = .transientError) ∧
      (∀ (writers : String → Nat → Bool) (domains : List String),
        (run (fun _ => noProxyProbe) writers domains).verdicts =
          domains.map (fun d => (d, false))) := by
  intro env henv
  refine ⟨?_, fun n => rfl, ?_⟩
  · rcases henv with h | h <;> simp [build_proxy_url, h]
  · intro writers domains
    rw [run_eq]
    refine List.map_congr_left fun d _ => ?_
    have hres := (check_domain_all_false noProxyProbe (writers d)
      (fun i _ _ =>
        congrArg AttemptEffect.returnTrue
          (attemptEffect_of_error noProxyProbe (writers d) i .other rfl))).1
    rw [hres]

/-- Witness for claim C5 at the empty environment: no proxy URL, the
warning fires, and a one-domain run yields the False verdict. -/
theorem claim_C5_witness :
    build_proxy_url (fun _ => none) = (none, true) ∧
    classify (noProxyProbe 1) = .transientError ∧
    (run (fun _ => noProxyProbe) (fun _ _ => true) ["a.com"]).verdicts =
      [("a.com", false)] := by
  obtain ⟨h1, h2, h3⟩ := claim_C5 (fun _ => none) (Or.inl rfl)
  exact ⟨h1, h2 1, by simpa using h3 (fun _ _ => true) ["a.com"]⟩

/-- The scheduler state of `run` (lines 179-191): domains whose
semaphore-gated task has not yet acquired a permit, domains whose
pipeline is in flight, domains whose pipeline has completed, and the
result lines written so far (after the header). -/
structure SchedState where
  pending : List String
  running : List String
  done : List String
  output : List String
deriving DecidableEq

/-- One scheduler transition: `start` models a queued task acquiring the
semaphore (possible only while fewer than `cap` pipelines are in flight;
tasks acquire in submission order), and `finish` models any in-flight
pipeline completing — writing its result line and releasing the
semaphore.  `verdict d` is the boolean its `check_domain` call returns. -/
inductive Step (cap : Nat) (verdict : String → Bool) :
    SchedState → SchedState → Prop where
  | start (d : String) (rest : List String) (s : SchedState) :
      s.pending = d :: rest → s.running.length < cap →
      Step cap verdict s
        { pending := rest, running := s.running ++ [d],
          done := s.done, output := s.output }
  | finish (d : String) (s : SchedState) :
      d ∈ s.running →
      Step cap verdict s
        { pending := s.pending, running := s.running.erase d,
          done := s.done ++ [d],
          output := s.output ++ [resultLine d (verdict d)] }

/-- States reachable from `init` by scheduler transitions. -/
inductive Reachable (cap : Nat) (verdict : String → Bool)
    (init : SchedState) : SchedState → Prop where
  | refl : Reachable cap verdict init init
  | step {s t : SchedState} : Reachable cap verdict init s →
      Step cap verdict s t → Reachable cap verdict init t

/-- The scheduler's initial state: all loaded domains queued, nothing in
flight, nothing written after the header. -/
def initState (domains : List String) : SchedState :=
  { pending := domains, running := [], done := [], output := [] }

/-- A state from which no transition is possible: `asyncio.gather`
returns exactly in such a state. -/
def Terminal (cap : Nat) (verdict : String → Bool) (s : SchedState) : Prop :=
  ∀ t, ¬ Step cap verdict s t

lemma reachable_invariant (cap : Nat) (verdict : String → Bool)
    (domains : List String) (s : SchedState)
    (h : Reachable cap verdict (initState domains) s) :
    s.running.length ≤ cap ∧
    List.Perm (s.pending ++ s.running ++ s.done) domains ∧
    s.output = s.done.map (fun d => resultLine d (verdict d)) := by
  induction h with
  | refl => simp [initState]
  | step hr hs ih =>
    obtain ⟨ihc, ihp, iho⟩ := ih
    cases hs with
    | start d rest s0 hp hc =>
      rw [hp] at ihp
      refine ⟨by simpa using hc, ?_, iho⟩
      refine List.Perm.trans (List.perm_iff_count.mpr fun a => ?_) ihp
      simp only [List.count_append, List.count_cons, List.count_nil]
      omega
    | finish d s0 hd =>
      have hcount := List.count_pos_iff.mpr hd
      refine ⟨?_, ?_, by simp [iho]⟩
      · rw [List.length_erase_of_mem hd]
        omega
      · refine List.Perm.trans (List.perm_iff_count.mpr fun a => ?_) ihp
        by_cases hda : d = a
        · subst hda
          simp [List.count_append, List.count_cons, List.count_erase]
          omega
        · simp [List.count_append, List.count_cons, List.count_erase, hda]

lemma terminal_drained (cap : Nat) (verdict : String → Bool)
    (s : SchedState) (hcap : 0 < cap)
    (ht : Terminal cap verdict s) : s.pending = [] ∧ s.running = [] := by
  cases hrun : s.running with
  | cons r rs =>
    exact absurd (Step.finish r s (by simp [hrun])) (ht _)
  | nil =>
    cases hpend : s.pending with
    | nil => exact ⟨rfl, rfl⟩
    | cons d rest =>
      exact absurd (Step.start d rest s hpend (by simp [hrun, hcap]))
        (ht _)

/-- Claim C1: in every scheduler run that has reached a state where
`asyncio.gather` can return (no transition possible), every domain of the
deduplicated input has completed exactly once — nothing pending, nothing
in flight, the completed list is a permutation of the input with no
duplicates, every domain appears in it, and the output holds exactly one
result line per completed domain (whatever boolean each pipeline
produced, so a domain whose every attempt failed contributes a False
line, not an omission). -/
theorem claim_C1 :
    ∀ (cap : Nat) (verdict : String → Bool) (domains : List String)
      (s : SchedState),
      0 < cap → domains.Nodup →
      Reachable cap verdict (initState domains) s →
      Terminal cap verdict s →
      s.pending = [] ∧ s.running = [] ∧
      List.Perm s.done domains ∧ s.done.Nodup ∧
      (∀ d ∈ domains, d ∈ s.done) ∧
      s.output = s.done.map (fun d => resultLine d (verdict d)) ∧
      s.output.length = domains.length := by
  intro cap verdict domains s hcap hnd hr ht
  obtain ⟨-, hperm, hout⟩ := reachable_invariant cap verdict domains s hr
  obtain ⟨hpend, hrun⟩ := terminal_drained cap verdict s hcap ht
  rw [hpend, hrun] at hperm
  simp only [List.nil_append] at hperm
  refine ⟨hpend, hrun, hperm, hperm.symm.nodup hnd, ?_, hout, ?_⟩
  · intro d hdm
    exact hperm.symm.mem_iff.mp hdm
  · rw [hout]
    simp [hperm.length_eq]

/-- The final state of the demonstration run used to witness claim C1. -/
def demoFinal : SchedState :=
  { pending := [], running := [], done := ["a.com"],
    output := [resultLine "a.com" false] }

/-- Witness for claim C1: a concrete complete run over the one-domain
input `a.com` with cap 1 and an all-failure verdict. -/
theorem claim_C1_witness :
    demoFinal.pending = [] ∧ demoFinal.running = [] ∧
    List.Perm demoFinal.done ["a.com"] ∧ demoFinal.done.Nodup ∧
    (∀ d ∈ (["a.com"] : List String), d ∈ demoFinal.done) ∧
    demoFinal.output = demoFinal.done.map
      (fun d => resultLine d ((fun _ => false) d)) ∧
    demoFinal.output.length = (["a.com"] : List String).length := by
  have r0 : Reachable 1 (fun _ => false) (initState ["a.com"])
      (initState ["a.com"]) := .refl
  have r1 := r0.step (Step.start "a.com" [] _ rfl (by decide))
  have r2 : Reachable 1 (fun _ => false) (initState ["a.com"]) demoFinal :=
    r1.step (Step.finish "a.com" _ (by decide))
  refine claim_C1 1 (fun _ => false) ["a.com"] demoFinal (by decide)
    (by decide) r2 ?_
  intro t hstep
  cases hstep with
  | start d rest s hp hc => exact absurd hp (by simp [demoFinal])
  | finish d s hd => exact absurd hd (by simp [demoFinal])

/-- Claim C6: the semaphore cap used by `run` is 500, and in every
reachable scheduler state at most `cap` domain pipelines are in flight,
however many domains are queued. -/
theorem claim_C6 :
    concurrencyCap = 500 ∧
    ∀ (cap : Nat) (verdict : String → Bool) (domains : List String)
      (s : SchedState),
      Reachable cap verdict (initState domains) s →
      s.running.length ≤ cap := by
  refine ⟨rfl, ?_⟩
  intro cap verdict domains s hr
  exact (reachable_invariant cap verdict domains s hr).1

/-- A mid-run state with one pipeline in flight, used to witness C6. -/
def demoMid : SchedState :=
  { pending := ["b.com"], running := ["a.com"], done := [], output := [] }

/-- Witness for claim C6: with cap 1 and two queued domains, the
reachable mid-run state has exactly one pipeline in flight, within the
cap. -/
theorem claim_C6_witness : demoMid.running.length ≤ 1 := by
  have r0 : Reachable 1 (fun _ => false) (initState ["a.com", "b.com"])
      (initState ["a.com", "b.com"]) := .refl
  have r1 : Reachable 1 (fun _ => false) (initState ["a.com", "b.com"])
      demoMid :=
    r0.step (Step.start "a.com" ["b.com"] _ rfl (by decide))
  exact claim_C6.2 1 (fun _ => false) ["a.com", "b.com"] demoMid r1

/-- Python `str.strip` (line 68, `line.strip()`), over the character
list: drop whitespace from both ends. -/
def pyStrip (s : String) : String :=
  ⟨((s.data.dropWhile Char.isWhitespace).reverse.dropWhile
    Char.isWhitespace).reverse⟩

/-- The filter of `load_domains` (line 69): truthy (non-empty), contains
a dot, and does not start with a dot. -/
def validDomain (s : String) : Bool :=
  (!s.data.isEmpty) && s.data.contains '.' && !(s.data.head? == some '.')

/-- The `for line in f` loop body of `load_domains` (lines 64-72): a
seen-set alongside the append-only list of first occurrences. -/
def loadLoop : List String → List String → List String → List String
  | [], domains, _ => domains
  | line :: rest, domains, seen =>
    let domain := pyStrip line
    if validDomain domain then
      if domain ∈ seen then loadLoop rest domains seen
      else loadLoop rest (domains ++ [domain]) (domain :: seen)
    else loadLoop rest domains seen

/-- `load_domains` (lines 61-78) on the list of lines of the input file. -/
def load_domains (lines : List String) : List String := loadLoop lines [] []

/-- Specification-side formulation for claim C7: keep the first
occurrence of each element, preserving first-seen order. -/
def keepFirst (l : List String) : List String :=
  l.foldl (fun acc d => if d ∈ acc then acc else acc ++ [d]) []

lemma keepFirst_go_mem (l : List String) :
    ∀ (acc : List String) (d : String),
      d ∈ l.foldl (fun acc d => if d ∈ acc then acc else acc ++ [d]) acc ↔
        d ∈ acc ∨ d ∈ l := by
  induction l with
  | nil => simp
  | cons e rest ih =>
    intro acc d
    by_cases he : e ∈ acc
    · simp only [List.foldl_cons, if_pos he, ih, List.mem_cons]
      constructor
      · rintro (h | h)
        · exact Or.inl h
        · exact Or.inr (Or.inr h)
      · rintro (h | h | h)
        · exact Or.inl h
        · exact Or.inl (h ▸ he)
        · exact Or.inr h
    · simp only [List.foldl_cons, if_neg he, ih, List.mem_append,
        List.mem_singleton, List.mem_cons]
      tauto

lemma keepFirst_go_nodup (l : List String) :
    ∀ acc : List String, acc.Nodup →
      (l.foldl (fun acc d => if d ∈ acc then acc else acc ++ [d]) acc).Nodup := by
  induction l with
  | nil => exact fun acc h => h
  | cons e rest ih =>
    intro acc hacc
    by_cases he : e ∈ acc
    · simpa only [List.foldl_cons, if_pos he] using ih acc hacc
    · rw [List.foldl_cons, if_neg he]
      refine ih (acc ++ [e]) ?_
      rw [← List.concat_eq_append]
      exact hacc.concat he

lemma loadLoop_eq_foldl (lines : List String) :
    ∀ (domains seen : List String), (∀ d, d ∈ seen ↔ d ∈ domains) →
      loadLoop lines domains seen =
        ((lines.map pyStrip).filter validDomain).foldl
          (fun acc d => if d ∈ acc then acc else acc ++ [d]) domains := by
  induction lines with
  | nil => intro domains seen _; rfl
  | cons line rest ih =>
    intro domains seen hinv
    by_cases hv : validDomain (pyStrip line)
    · by_cases hm : pyStrip line ∈ seen
      · have hm2 : pyStrip line ∈ domains := (hinv _).mp hm
        simp only [loadLoop, if_pos hv, if_pos hm, List.map_cons,
          List.filter_cons_of_pos hv, List.foldl_cons, if_pos hm2]
        exact ih domains seen hinv
      · have hm2 : pyStrip line ∉ domains := fun h => hm ((hinv _).mpr h)
        simp only [loadLoop, if_pos hv, if_neg hm, List.map_cons,
          List.filter_cons_of_pos hv, List.foldl_cons, if_neg hm2]
        refine ih (domains ++ [pyStrip line]) (pyStrip line :: seen) ?_
        intro d
        simp only [List.mem_cons, hinv d, List.mem_append,
          List.mem_singleton]
        tauto
    · simp only [loadLoop, if_neg hv, List.map_cons,
        List.filter_cons_of_neg hv]
      exact ih domains seen hinv

/-- Claim C7: `load_domains` keeps exactly the stripped lines that are
non-empty, contain a dot and do not start with a dot, collapsing exact
duplicates to their first occurrence and preserving first-seen order
(formalised as equality with `keepFirst` of the filtered stripped lines,
plus no-duplicates and membership characterisation); the example input
`a.com, b.com, a.com, notadomain, .bad` loads exactly `[a.com, b.com]`. -/
theorem claim_C7 :
    (∀ lines : List String,
      load_domains lines =
        keepFirst ((lines.map pyStrip).filter validDomain)) ∧
    (∀ lines : List String, (load_domains lines).Nodup) ∧
    (∀ (lines : List String) (d : String),
      d ∈ load_domains lines ↔
        (validDomain d = true ∧ ∃ line ∈ lines, pyStrip line = d)) ∧
    load_domains ["a.com", "b.com", "a.com", "notadomain", ".bad"] =
      ["a.com", "b.com"] := by
  have heq : ∀ lines : List String,
      load_domains lines =
        keepFirst ((lines.map pyStrip).filter validDomain) := by
    intro lines
    exact loadLoop_eq_foldl lines [] [] (by simp)
  refine ⟨heq, ?_, ?_, by decide⟩
  · intro lines
    rw [heq]
    exact keepFirst_go_nodup _ [] List.nodup_nil
  · intro lines d
    rw [heq, keepFirst]
    rw [keepFirst_go_mem]
    simp only [List.not_mem_nil, false_or, List.mem_filter, List.mem_map]
    constructor
    · rintro ⟨⟨line, hline, hstrip⟩, hvalid⟩
      exact ⟨hvalid, line, hline, hstrip⟩
    · rintro ⟨hvalid, line, hline, hstrip⟩
      exact ⟨⟨line, hline, hstrip⟩, hvalid⟩

/-- The evidence file name for one attempt (line 107):
`f"ES_DigiSpain_attempt{attempt}.html"`. -/
def attemptFileName (attempt : Nat) : String :=
  isp_label ++ "_attempt" ++ Nat.repr attempt ++ ".html"

/-- The evidence file path (lines 104-107):
`Path(html_dir) / domain / attemptFileName`. -/
def evidencePath (dir domain : String) (attempt : Nat) : String :=
  dir ++ "/" ++ domain ++ "/" ++ attemptFileName attempt

lemma string_data_inj (s t : String) (h : s.data = t.data) : s = t := by
  cases s; cases t; exact congrArg String.mk h

lemma evidencePath_eq_parts (dir d1 d2 : String) (a1 a2 : Nat)
    (hlen : (attemptFileName a1).data.length =
      (attemptFileName a2).data.length)
    (h : evidencePath dir d1 a1 = evidencePath dir d2 a2) :
    d1 = d2 ∧ (attemptFileName a1).data = (attemptFileName a2).data := by
  have hd := congrArg String.data h
  simp only [evidencePath, String.data_append, List.append_assoc] at hd
  have hd2 := List.append_cancel_left hd
  have hd3 := List.append_cancel_left hd2
  have hl : d1.data.length = d2.data.length := by
    have hll := congrArg List.length hd3
    simp only [List.length_append] at hll
    omega
  obtain ⟨h1, h2⟩ := List.append_inj hd3 hl
  exact ⟨string_data_inj d1 d2 h1, List.append_cancel_left h2⟩

/-- Claim C8: over the attempt numbers the program uses
(1..`max_attempts`), the evidence path map is injective in the
(domain, attempt) pair: distinct domains never share an evidence path
and distinct attempts for one domain never share an evidence file. -/
theorem claim_C8 :
    ∀ (dir d1 d2 : String) (a1 a2 : Nat),
      1 ≤ a1 → a1 ≤ max_attempts → 1 ≤ a2 → a2 ≤ max_attempts →
      evidencePath dir d1 a1 = evidencePath dir d2 a2 →
      d1 = d2 ∧ a1 = a2 := by
  intro dir d1 d2 a1 a2 h11 h13 h21 h23 h
  rw [max_attempts] at h13 h23
  interval_cases a1 <;> interval_cases a2 <;>
    obtain ⟨hdd, hff⟩ := evidencePath_eq_parts dir d1 d2 _ _ (by decide) h <;>
      first
        | exact ⟨hdd, rfl⟩
        | exact absurd hff (by decide)

/-- Witness for claim C8: at the concrete evidence root, domain and
attempt of a real blocked capture, path equality holds reflexively and
injectivity returns the same pair. -/
theorem claim_C8_witness :
    ("a.com" : String) = "a.com" ∧ (1 : Nat) = 1 :=
  claim_C8 "html_content" "a.com" "a.com" 1 1 (by decide) (by decide)
    (by decide) (by decide) rfl

end SpainIPChecker
